import Mathlib

/-! Shallow embedding of the ResilientApp/nexus document index cache
(`DocumentIndexManager`, src/unnamed/part_003) and proofs of the spec's
claims about it.

Modelling conventions:
* `FS` models the filesystem as two partial maps: `stat` gives a file's
  modification time (`none` = the file is missing or `stat` throws), and
  `read` gives the deserialized contents of a cached segments file
  (`none` = `readFile` or `JSON.parse` throws).  Timestamps are `Nat`.
* JSON text serialization is abstracted to the structured record list the
  code writes (one `{id_, text, metadata}` record per document, part_003
  lines 117-121) and reads back (lines 90-96): `JSON.parse` after
  `JSON.stringify` is the identity on JSON-representable values, so the
  on-disk value is modelled as the record list itself.  Metadata values
  are opaque strings.
* The external collaborators are oracles in `Env`: `parse` is the
  LlamaParse adapter as a whole (`none` = both the `loadJson` and the
  fallback `loadData` extraction throw), `buildOk` says whether
  `VectorStoreIndex.fromDocuments` succeeds on a given document list, and
  `configOk` whether `configureSettings` succeeds.
* `process.cwd()` is modelled as the filesystem root (empty string) and
  `path.join` as `/`-concatenation, which agrees with `path.join` on the
  plain relative components the code joins.
* The contents of the cache `metadata.json` file are write-only in the
  code (nothing ever reads them back; only its mtime is observed by the
  freshness check), so only its mtime is modelled.
-/

namespace Nexus

/-- One parsed segment as the code persists and indexes it: exactly the
`Document` fields the code reads and writes (`id_`, `text`, `metadata`).
A metadata object is an insertion-ordered association list with opaque
string values. -/
structure Doc where
  id_ : String
  text : String
  metadata : List (String × String)
deriving DecidableEq

/-- JS `Map.get` / object property lookup on an association list. -/
def assocGet {α : Type} : List (String × α) → String → Option α
  | [], _ => none
  | p :: m, k => if p.1 = k then some p.2 else assocGet m k

/-- JS `Map.set`, and object-spread override `(spread obj, k: v)`: replace
the value in place when the key is present, append the pair otherwise. -/
def assocSet {α : Type} : List (String × α) → String → α → List (String × α)
  | [], k, v => [(k, v)]
  | p :: m, k, v => if p.1 = k then (k, v) :: m else p :: assocSet m k v

/-- JS `Map.delete`. -/
def assocDel {α : Type} (m : List (String × α)) (k : String) : List (String × α) :=
  m.filter (fun p => p.1 ≠ k)

/-- Filesystem as this code observes it. -/
structure FS where
  stat : String → Option Nat
  read : String → Option (List Doc)

/-- JS `str.split("/")` on the character list: split at every '/',
keeping empty components (so the empty string gives one empty component,
as in JS). -/
def splitOnSlash : List Char → List (List Char)
  | [] => [[]]
  | c :: cs =>
    if c = '/' then [] :: splitOnSlash cs
    else
      match splitOnSlash cs with
      | [] => [[c]]
      | h :: t => (c :: h) :: t

/-- JS `base.replace(re, "")` for the extension regex of part_003 line 48:
drop a trailing dot followed by one or more characters none of which is
'/' or '.'; leave the string unchanged when no such suffix exists. -/
def stripExt (s : List Char) : List Char :=
  let rev := s.reverse
  let suffix := rev.takeWhile (fun c => ¬ c = '.')
  match rev.dropWhile (fun c => ¬ c = '.') with
  | '.' :: before =>
    if suffix.isEmpty then s
    else if suffix.any (fun c => c = '/') then s
    else before.reverse
  | _ => s

/-- Lines 44-48 of part_003: the directory name derived from a document
path — last '/'-component with its final extension stripped, or
`"document"` when that leaves the empty string (JS `|| "document"`). -/
def jsFileName (documentPath : String) : String :=
  let base := (splitOnSlash documentPath.data).getLastD []
  let stripped := stripExt base
  if stripped.isEmpty then "document" else String.mk stripped

/-- `path.join` on the plain components the code joins. -/
def pathJoin (a b : String) : String := a ++ "/" ++ b

/-- `process.cwd()`, modelled as the filesystem root. -/
def cwd : String := ""

/-- The two sibling cache file paths (and their directory) for a
document. -/
structure ParsedPaths where
  documentsPath : String
  metadataPath : String
  parsedDir : String
deriving DecidableEq

/-- Lines 43-55 of part_003 (`getParsedPaths`). -/
def getParsedPaths (documentPath : String) : ParsedPaths :=
  let parsedDir :=
    pathJoin (pathJoin (pathJoin cwd "documents") "parsed") (jsFileName documentPath)
  { documentsPath := pathJoin parsedDir "documents.json"
    metadataPath := pathJoin parsedDir "metadata.json"
    parsedDir := parsedDir }

/-- Lines 58-79 of part_003 (`shouldUseParsedFiles`): stat the source and
the two cache files; fresh iff both cache files are at least as new as
the source; any stat failure gives `false` (the catch block). -/
def shouldUseParsedFiles (fs : FS) (documentPath : String) : Bool :=
  let sourcePath := pathJoin cwd documentPath
  let paths := getParsedPaths documentPath
  match fs.stat sourcePath, fs.stat paths.documentsPath, fs.stat paths.metadataPath with
  | some sourceStats, some documentsStats, some metadataStats =>
    decide (sourceStats ≤ documentsStats) && decide (sourceStats ≤ metadataStats)
  | _, _, _ => false

/-- Lines 82-102 of part_003 (`loadParsedDocuments`): read the segments
file and rebuild one `Document` per stored record; `none` models the
rethrown failure ("Failed to load pre-parsed documents"). -/
def loadParsedDocuments (fs : FS) (documentPath : String) : Option (List Doc) :=
  match fs.read (getParsedPaths documentPath).documentsPath with
  | some parsedDocuments =>
    some (parsedDocuments.map (fun doc => Doc.mk doc.id_ doc.text doc.metadata))
  | none => none

/-- Lines 105-156 of part_003 (`saveParsedDocuments`): best-effort write
of the two cache files.  The code stats the source file (for the cache
metadata) before writing anything; when that stat throws, the catch block
swallows the error and nothing is written.  On success both files exist
with the write-time mtime and the segments file holds one
`{id_, text, metadata}` record per document. -/
def saveParsedDocuments (fs : FS) (documentPath : String) (documents : List Doc)
    (now : Nat) : FS :=
  let paths := getParsedPaths documentPath
  match fs.stat (pathJoin cwd documentPath) with
  | none => fs
  | some _ =>
    let documentsData := documents.map (fun doc => Doc.mk doc.id_ doc.text doc.metadata)
    { stat := fun q =>
        if q = paths.documentsPath ∨ q = paths.metadataPath then some now else fs.stat q
      read := fun q =>
        if q = paths.documentsPath then some documentsData else fs.read q }

/-- The ways an indexing operation can fail, named after the spec's error
taxonomy; in the code each is a thrown `Error`. -/
inductive PrepErr where
  | configFailed
  | parseFailed
  | emptyDocument
  | buildFailed
deriving DecidableEq

/-- The external collaborators as oracles (see the module comment): the
parser adapter, the vector index builder's success, the embedding
configuration's success, and the wall clock used for write mtimes. -/
structure Env where
  configOk : Bool
  buildOk : List Doc → Bool
  parse : String → Option (List Doc)
  now : Nat

/-- An in-memory vector index; the model records the documents it was
built from (`VectorStoreIndex.fromDocuments`). -/
structure VectorStoreIndex where
  docs : List Doc
deriving DecidableEq

/-- The manager's in-memory state: the `documentIndices` map (the
IndexRegistry). -/
structure MgrState where
  documentIndices : List (String × VectorStoreIndex)
deriving DecidableEq

/-- Lines 159-260 of part_003 (`parseAndSaveDocuments`): invoke the
parser adapter and, on success, best-effort save the result to the cache.
The adapter oracle covers both the JSON-layout method and the text
fallback; `none` means both threw, which the code propagates. -/
def parseAndSaveDocuments (env : Env) (fs : FS) (documentPath : String) :
    Except PrepErr (List Doc × FS) :=
  match env.parse documentPath with
  | none => .error .parseFailed
  | some documents => .ok (documents, saveParsedDocuments fs documentPath documents env.now)

/-- Lines 274-294 of part_003: the `documents` branch of `prepareIndex` —
use the cache when fresh, fall back to parsing when the cache is stale or
its load throws.  The second component counts parser invocations. -/
def determineDocuments (env : Env) (fs : FS) (documentPath : String) :
    Except PrepErr (List Doc × FS) × Nat :=
  if shouldUseParsedFiles fs documentPath then
    match loadParsedDocuments fs documentPath with
    | some documents => (.ok (documents, fs), 0)
    | none => (parseAndSaveDocuments env fs documentPath, 1)
  else (parseAndSaveDocuments env fs documentPath, 1)

/-- What one `prepareIndex` call produces: its outcome, the registry and
filesystem afterwards, and how often it invoked the parser and the index
builder. -/
structure PrepResult where
  out : Except PrepErr Unit
  st : MgrState
  fs : FS
  parseCalls : Nat
  buildCalls : Nat

/-- Lines 263-308 of part_003 (`prepareIndex`): configure settings (may
throw), return at once when the registry already has the document,
otherwise determine the documents, reject an empty result ("No content
could be extracted from the document"), build the index and only then
insert it into the registry. -/
def prepareIndex (env : Env) (st : MgrState) (fs : FS) (documentPath : String) :
    PrepResult :=
  if env.configOk = false then ⟨.error .configFailed, st, fs, 0, 0⟩
  else
    match assocGet st.documentIndices documentPath with
    | some _ => ⟨.ok (), st, fs, 0, 0⟩
    | none =>
      match determineDocuments env fs documentPath with
      | (.error e, parseCalls) => ⟨.error e, st, fs, parseCalls, 0⟩
      | (.ok (documents, fs1), parseCalls) =>
        if documents.length = 0 then ⟨.error .emptyDocument, st, fs1, parseCalls, 0⟩
        else if env.buildOk documents then
          ⟨.ok (), ⟨assocSet st.documentIndices documentPath ⟨documents⟩⟩, fs1,
            parseCalls, 1⟩
        else ⟨.error .buildFailed, st, fs1, parseCalls, 1⟩

/-- What one `getIndex` call produces.  `getIndex` never re-parses and
never throws (every fallible step of its rebuild path sits inside its
try/catch), so the outcome is an `Option`, not an `Except`. -/
structure GetResult where
  index : Option VectorStoreIndex
  st : MgrState
  parseCalls : Nat
  buildCalls : Nat

/-- Lines 311-350 of part_003 (`getIndex`): return the registry entry
when present; otherwise silently rebuild from the cache only — freshness
check, load, configure, build, insert — returning `none` (and leaving the
registry unchanged) whenever any step of that is unavailable or throws. -/
def getIndex (env : Env) (st : MgrState) (fs : FS) (documentPath : String) :
    GetResult :=
  match assocGet st.documentIndices documentPath with
  | some documentIndex => ⟨some documentIndex, st, 0, 0⟩
  | none =>
    if shouldUseParsedFiles fs documentPath then
      match loadParsedDocuments fs documentPath with
      | some documents =>
        if 0 < documents.length then
          if env.configOk = false then ⟨none, st, 0, 0⟩
          else if env.buildOk documents then
            ⟨some ⟨documents⟩, ⟨assocSet st.documentIndices documentPath ⟨documents⟩⟩,
              0, 1⟩
          else ⟨none, st, 0, 1⟩
        else ⟨none, st, 0, 0⟩
      | none => ⟨none, st, 0, 0⟩
    else ⟨none, st, 0, 0⟩

/-- Lines 353-355 of part_003 (`hasIndex`). -/
def hasIndex (st : MgrState) (documentPath : String) : Bool :=
  (assocGet st.documentIndices documentPath).isSome

/-- Lines 459-466 of part_003 (`clearIndices`): delete each listed path
from the registry when present. -/
def clearIndices (st : MgrState) (documentPaths : List String) : MgrState :=
  ⟨documentPaths.foldl
    (fun m p => if (assocGet m p).isSome then assocDel m p else m)
    st.documentIndices⟩

/-- Line 405-414 of part_003: re-wrap a loaded document, spreading its
metadata and overriding `source_document` with the originating path. -/
def tagSource (documentPath : String) (doc : Doc) : Doc :=
  ⟨doc.id_, doc.text, assocSet doc.metadata "source_document" documentPath⟩

/-- Lines 399-425 of part_003: the collection loop of `getCombinedIndex` —
load every document's cached segments, tag them with their source, and
skip (continue past) any document whose load throws. -/
def collectAllDocuments (fs : FS) : List String → List Doc
  | [] => []
  | documentPath :: rest =>
    match loadParsedDocuments fs documentPath with
    | some documents =>
      documents.map (tagSource documentPath) ++ collectAllDocuments fs rest
    | none => collectAllDocuments fs rest

/-- Lines 391-441 of part_003 (`getCombinedIndex`): collect all cached
segments, return `none` when nothing was collected, otherwise configure
settings (uncaught, may throw) and build one combined index (uncaught,
may throw).  The combined index is not inserted into the registry. -/
def getCombinedIndex (env : Env) (fs : FS) (documentPaths : List String) :
    Except PrepErr (Option VectorStoreIndex) :=
  let allDocuments := collectAllDocuments fs documentPaths
  if allDocuments.length = 0 then .ok none
  else if env.configOk = false then .error .configFailed
  else if env.buildOk allDocuments then .ok (some ⟨allDocuments⟩)
  else .error .buildFailed

/-! ## The event-loop model of concurrent `prepareIndex` calls

`prepareIndex` is `async`: in Node's event loop, another task can run at
every `await`.  A task's program counter names the await it is suspended
at; one `stepTask` runs the synchronous code from that await up to the
next one (or to completion), which is exactly the atomicity the event
loop gives.  The registry check (`start`) and the registry insert (the
continuation of the build await) sit in different atomic segments, with
the freshness check, the parse and the build awaited in between. -/

instance {ε α : Type} [DecidableEq ε] [DecidableEq α] : DecidableEq (Except ε α) :=
  fun a b =>
    match a, b with
    | .ok x, .ok y =>
      if h : x = y then isTrue (by rw [h]) else isFalse (by intro hc; cases hc; exact h rfl)
    | .error e, .error e' =>
      if h : e = e' then isTrue (by rw [h]) else isFalse (by intro hc; cases hc; exact h rfl)
    | .ok _, .error _ => isFalse (by intro hc; cases hc)
    | .error _, .ok _ => isFalse (by intro hc; cases hc)

/-- Where a suspended `prepareIndex(ref)` task is: `start` before any
await, then suspended at the freshness check, the cache load, the parse,
or the index build, then `done`. -/
inductive TaskPC where
  | start
  | freshness
  | loadCache
  | parseDoc
  | buildIndex (documents : List Doc)
  | done (out : Except PrepErr Unit)
deriving DecidableEq

/-- One in-flight `prepareIndex` call. -/
structure Task where
  ref : String
  pc : TaskPC
deriving DecidableEq

/-- The process-wide shared state the tasks race on, plus the parse and
build counters. -/
structure Global where
  registry : List (String × VectorStoreIndex)
  fs : FS
  parseCalls : Nat
  buildCalls : Nat

/-- Run one task's next synchronous segment (between-awaits code of
lines 263-308 of part_003). -/
def stepTask (env : Env) (g : Global) (t : Task) : Global × Task :=
  match t.pc with
  | .start =>
    if env.configOk = false then (g, { t with pc := .done (.error .configFailed) })
    else
      match assocGet g.registry t.ref with
      | some _ => (g, { t with pc := .done (.ok ()) })
      | none => (g, { t with pc := .freshness })
  | .freshness =>
    if shouldUseParsedFiles g.fs t.ref then (g, { t with pc := .loadCache })
    else (g, { t with pc := .parseDoc })
  | .loadCache =>
    match loadParsedDocuments g.fs t.ref with
    | some documents =>
      if documents.length = 0 then (g, { t with pc := .done (.error .emptyDocument) })
      else (g, { t with pc := .buildIndex documents })
    | none => (g, { t with pc := .parseDoc })
  | .parseDoc =>
    let g1 := { g with parseCalls := g.parseCalls + 1 }
    match env.parse t.ref with
    | none => (g1, { t with pc := .done (.error .parseFailed) })
    | some documents =>
      let g2 := { g1 with fs := saveParsedDocuments g1.fs t.ref documents env.now }
      if documents.length = 0 then (g2, { t with pc := .done (.error .emptyDocument) })
      else (g2, { t with pc := .buildIndex documents })
  | .buildIndex documents =>
    let g1 := { g with buildCalls := g.buildCalls + 1 }
    if env.buildOk documents then
      ({ g1 with registry := assocSet g1.registry t.ref ⟨documents⟩ },
        { t with pc := .done (.ok ()) })
    else (g1, { t with pc := .done (.error .buildFailed) })
  | .done _ => (g, t)

/-- Step the task the scheduler picked (an index into the task list);
out-of-range picks do nothing. -/
def stepSystem (env : Env) (sys : Global × List Task) (i : Nat) : Global × List Task :=
  match sys.2[i]? with
  | some t =>
    let r := stepTask env sys.1 t
    (r.1, sys.2.set i r.2)
  | none => sys

/-- Run a whole schedule: the event loop's interleaving as a list of task
picks. -/
def runSched (env : Env) (sys : Global × List Task) (sched : List Nat) :
    Global × List Task :=
  sched.foldl (stepSystem env) sys

/-- A task that has completed successfully. -/
def taskDoneOk (t : Task) : Bool :=
  match t.pc with
  | .done (.ok ()) => true
  | _ => false

/-! ## Helper lemmas -/

theorem assocGet_assocSet {α : Type} (m : List (String × α)) (k : String) (v : α) :
    assocGet (assocSet m k v) k = some v := by
  induction m with
  | nil => simp [assocGet, assocSet]
  | cons p m ih =>
    by_cases h : p.1 = k
    · simp [assocGet, assocSet, h]
    · simp [assocGet, assocSet, h, ih]

theorem assocGet_assocDel {α : Type} (m : List (String × α)) (k : String) :
    assocGet (assocDel m k) k = none := by
  induction m with
  | nil => simp [assocGet, assocDel]
  | cons p m ih =>
    by_cases h : p.1 = k
    · simpa [assocDel, h] using ih
    · simpa [assocDel, assocGet, h] using ih

theorem map_doc_eta (l : List Doc) :
    l.map (fun doc => Doc.mk doc.id_ doc.text doc.metadata) = l := by
  induction l with
  | nil => rfl
  | cons d l ih => simp [ih]

theorem data_append (a b : String) : (a ++ b).data = a.data ++ b.data := rfl

theorem pathJoin_data (a b : String) :
    (pathJoin a b).data = a.data ++ '/' :: b.data := by
  show (a ++ "/" ++ b).data = a.data ++ '/' :: b.data
  rw [data_append, data_append, List.append_assoc]
  rfl

/-! ## Shared concrete inputs for witnesses and counterexamples -/

/-- A concrete parsed segment. -/
def doc0 : Doc := ⟨"seg1", "hello world", [("page_number", "1")]⟩

/-- A filesystem with nothing on it: every `stat` and `read` throws. -/
def fsNone : FS := ⟨fun _ => none, fun _ => none⟩

/-- A filesystem where every `stat` succeeds (mtime 3) but no cache file
is readable. -/
def fsStatOnly : FS := ⟨fun _ => some 3, fun _ => none⟩

/-- An environment where everything succeeds and every parse yields the
single segment `doc0`. -/
def envAll : Env := ⟨true, fun _ => true, fun _ => some [doc0], 7⟩

/-- The empty registry. -/
def stEmpty : MgrState := ⟨[]⟩

/-! ## C5 — freshness check -/

/-- C5: `shouldUseParsedFiles` returns `true` iff the source and both
cache files stat successfully and both cache mtimes are at least the
source mtime; any stat failure yields `false` instead of propagating. -/
theorem shouldUseParsedFiles_fresh_iff (fs : FS) (documentPath : String) :
    shouldUseParsedFiles fs documentPath = true ↔
      ∃ sourceStats documentsStats metadataStats,
        fs.stat (pathJoin cwd documentPath) = some sourceStats ∧
        fs.stat (getParsedPaths documentPath).documentsPath = some documentsStats ∧
        fs.stat (getParsedPaths documentPath).metadataPath = some metadataStats ∧
        sourceStats ≤ documentsStats ∧ sourceStats ≤ metadataStats := by
  unfold shouldUseParsedFiles
  rcases h1 : fs.stat (pathJoin cwd documentPath) with _ | s <;>
    rcases h2 : fs.stat (getParsedPaths documentPath).documentsPath with _ | d <;>
      rcases h3 : fs.stat (getParsedPaths documentPath).metadataPath with _ | m <;>
        simp [h1, h2, h3]

/-! ## C8 — cache round-trip -/

/-- C8: when the source file stats successfully (the only precondition
under which `saveParsedDocuments` writes at all), saving a document list
and loading it back yields the original list: identity, text and
metadata round-trip losslessly. -/
theorem saveParsedDocuments_roundtrip (fs : FS) (documentPath : String)
    (documents : List Doc) (now m : Nat)
    (h : fs.stat (pathJoin cwd documentPath) = some m) :
    loadParsedDocuments (saveParsedDocuments fs documentPath documents now) documentPath
      = some documents := by
  unfold saveParsedDocuments
  rw [h]
  unfold loadParsedDocuments
  simp [List.map_map]

/-- C8 witness: a concrete round-trip through the model at `doc0`. -/
theorem saveParsedDocuments_roundtrip_witness :
    loadParsedDocuments (saveParsedDocuments fsStatOnly "x/doc.pdf" [doc0] 9) "x/doc.pdf"
      = some [doc0] :=
  saveParsedDocuments_roundtrip fsStatOnly "x/doc.pdf" [doc0] 9 3 rfl

/-! ## C9 — cache key distinctness -/

/-- C9 counterexample: two distinct DocumentRefs (distinct
repository-relative paths) whose parse-cache storage locations coincide,
because the cache directory is derived from the base filename only. -/
theorem getParsedPaths_basename_collision :
    ("x/doc.pdf" : String) ≠ "y/doc.pdf" ∧
    (getParsedPaths "x/doc.pdf").documentsPath = (getParsedPaths "y/doc.pdf").documentsPath ∧
    (getParsedPaths "x/doc.pdf").metadataPath = (getParsedPaths "y/doc.pdf").metadataPath := by
  refine ⟨by decide, by decide, by decide⟩

/-- C9 amended: cache storage locations are distinct exactly as far as
the derived base filenames are — refs whose `jsFileName`s differ get
distinct segment-file paths. -/
theorem getParsedPaths_distinct_filenames (r₁ r₂ : String)
    (h : jsFileName r₁ ≠ jsFileName r₂) :
    (getParsedPaths r₁).documentsPath ≠ (getParsedPaths r₂).documentsPath := by
  intro hEq
  apply h
  have hd : (pathJoin (pathJoin (pathJoin (pathJoin cwd "documents") "parsed")
        (jsFileName r₁)) "documents.json").data
      = (pathJoin (pathJoin (pathJoin (pathJoin cwd "documents") "parsed")
        (jsFileName r₂)) "documents.json").data := by
    have := congrArg String.data hEq
    simpa [getParsedPaths] using this
  simp only [pathJoin_data] at hd
  have h1 := List.append_cancel_right hd
  have h2 := List.append_cancel_left h1
  have h3 : (jsFileName r₁).data = (jsFileName r₂).data := by
    injection h2
  calc jsFileName r₁ = String.mk (jsFileName r₁).data := rfl
    _ = String.mk (jsFileName r₂).data := by rw [h3]
    _ = jsFileName r₂ := rfl

/-- C9 amended witness: refs with distinct base filenames do get distinct
cache locations. -/
theorem getParsedPaths_distinct_filenames_witness :
    (getParsedPaths "a.pdf").documentsPath ≠ (getParsedPaths "b.pdf").documentsPath :=
  getParsedPaths_distinct_filenames "a.pdf" "b.pdf" (by decide)

/-! ## Case equations for `prepareIndex` -/

theorem prepareIndex_config_fail (env : Env) (st : MgrState) (fs : FS)
    (documentPath : String) (hc : env.configOk = false) :
    prepareIndex env st fs documentPath = ⟨.error .configFailed, st, fs, 0, 0⟩ := by
  unfold prepareIndex
  simp [hc]

theorem prepareIndex_found (env : Env) (st : MgrState) (fs : FS)
    (documentPath : String) (idx : VectorStoreIndex) (hc : env.configOk = true)
    (hidx : assocGet st.documentIndices documentPath = some idx) :
    prepareIndex env st fs documentPath = ⟨.ok (), st, fs, 0, 0⟩ := by
  unfold prepareIndex
  simp [hc, hidx]

theorem prepareIndex_det_err (env : Env) (st : MgrState) (fs : FS)
    (documentPath : String) (e : PrepErr) (parseCount : Nat)
    (hc : env.configOk = true)
    (hidx : assocGet st.documentIndices documentPath = none)
    (hdet : determineDocuments env fs documentPath = (.error e, parseCount)) :
    prepareIndex env st fs documentPath = ⟨.error e, st, fs, parseCount, 0⟩ := by
  unfold prepareIndex
  simp [hc, hidx, hdet]

theorem prepareIndex_det_empty (env : Env) (st : MgrState) (fs : FS)
    (documentPath : String) (fs1 : FS) (parseCount : Nat)
    (hc : env.configOk = true)
    (hidx : assocGet st.documentIndices documentPath = none)
    (hdet : determineDocuments env fs documentPath = (.ok ([], fs1), parseCount)) :
    prepareIndex env st fs documentPath
      = ⟨.error .emptyDocument, st, fs1, parseCount, 0⟩ := by
  unfold prepareIndex
  simp [hc, hidx, hdet]

theorem prepareIndex_built (env : Env) (st : MgrState) (fs : FS)
    (documentPath : String) (documents : List Doc) (fs1 : FS) (parseCount : Nat)
    (hc : env.configOk = true)
    (hidx : assocGet st.documentIndices documentPath = none)
    (hdet : determineDocuments env fs documentPath = (.ok (documents, fs1), parseCount))
    (hlen : documents.length ≠ 0) (hb : env.buildOk documents = true) :
    prepareIndex env st fs documentPath
      = ⟨.ok (), ⟨assocSet st.documentIndices documentPath ⟨documents⟩⟩, fs1,
          parseCount, 1⟩ := by
  unfold prepareIndex
  simp [hc, hidx, hdet, hlen, hb]

theorem prepareIndex_build_fail (env : Env) (st : MgrState) (fs : FS)
    (documentPath : String) (documents : List Doc) (fs1 : FS) (parseCount : Nat)
    (hc : env.configOk = true)
    (hidx : assocGet st.documentIndices documentPath = none)
    (hdet : determineDocuments env fs documentPath = (.ok (documents, fs1), parseCount))
    (hlen : documents.length ≠ 0) (hb : env.buildOk documents = false) :
    prepareIndex env st fs documentPath
      = ⟨.error .buildFailed, st, fs1, parseCount, 1⟩ := by
  unfold prepareIndex
  simp [hc, hidx, hdet, hlen, hb]

/-- Exhaustive case analysis of one `prepareIndex` call: every call is
settled by exactly one of the six case equations above. -/
theorem prepareIndex_cases (env : Env) (st : MgrState) (fs : FS)
    (documentPath : String) :
    (env.configOk = false ∧
      prepareIndex env st fs documentPath = ⟨.error .configFailed, st, fs, 0, 0⟩) ∨
    (env.configOk = true ∧
      (∃ idx, assocGet st.documentIndices documentPath = some idx) ∧
      prepareIndex env st fs documentPath = ⟨.ok (), st, fs, 0, 0⟩) ∨
    (env.configOk = true ∧ assocGet st.documentIndices documentPath = none ∧
      ((∃ e parseCount, determineDocuments env fs documentPath = (.error e, parseCount) ∧
          prepareIndex env st fs documentPath = ⟨.error e, st, fs, parseCount, 0⟩) ∨
       (∃ documents fs1 parseCount,
          determineDocuments env fs documentPath = (.ok (documents, fs1), parseCount) ∧
          ((documents.length = 0 ∧
              prepareIndex env st fs documentPath
                = ⟨.error .emptyDocument, st, fs1, parseCount, 0⟩) ∨
           (documents.length ≠ 0 ∧ env.buildOk documents = true ∧
              prepareIndex env st fs documentPath
                = ⟨.ok (), ⟨assocSet st.documentIndices documentPath ⟨documents⟩⟩, fs1,
                    parseCount, 1⟩) ∨
           (documents.length ≠ 0 ∧ env.buildOk documents = false ∧
              prepareIndex env st fs documentPath
                = ⟨.error .buildFailed, st, fs1, parseCount, 1⟩))))) := by
  cases hc : env.configOk with
  | false => exact Or.inl ⟨rfl, prepareIndex_config_fail env st fs documentPath hc⟩
  | true =>
    cases hidx : assocGet st.documentIndices documentPath with
    | some idx =>
      exact Or.inr (Or.inl ⟨rfl, ⟨idx, rfl⟩,
        prepareIndex_found env st fs documentPath idx hc hidx⟩)
    | none =>
      refine Or.inr (Or.inr ⟨rfl, rfl, ?_⟩)
      rcases hdet : determineDocuments env fs documentPath with ⟨res, parseCount⟩
      cases res with
      | error e =>
        exact Or.inl ⟨e, parseCount, rfl,
          prepareIndex_det_err env st fs documentPath e parseCount hc hidx hdet⟩
      | ok pair =>
        rcases pair with ⟨documents, fs1⟩
        refine Or.inr ⟨documents, fs1, parseCount, rfl, ?_⟩
        by_cases hlen : documents.length = 0
        · have h0 : documents = [] := List.length_eq_zero.mp hlen
          subst h0
          exact Or.inl ⟨rfl,
            prepareIndex_det_empty env st fs documentPath fs1 parseCount hc hidx hdet⟩
        · cases hb : env.buildOk documents with
          | true =>
            exact Or.inr (Or.inl ⟨hlen, rfl,
              prepareIndex_built env st fs documentPath documents fs1 parseCount
                hc hidx hdet hlen hb⟩)
          | false =>
            exact Or.inr (Or.inr ⟨hlen, rfl,
              prepareIndex_build_fail env st fs documentPath documents fs1 parseCount
                hc hidx hdet hlen hb⟩)

/-! ## C2 — sequential idempotence of `prepareIndex` -/

/-- C2: when the registry already holds an index for the document,
`prepareIndex` returns at once without parsing, loading or building; in
particular, after one successful `prepareIndex` a second sequential call
performs zero parser invocations and zero builds and leaves the
registry, and so the stored handle, unchanged. -/
theorem prepareIndex_idempotent (env : Env) (st : MgrState) (fs : FS)
    (documentPath : String) :
    (∀ idx, env.configOk = true →
      assocGet st.documentIndices documentPath = some idx →
      prepareIndex env st fs documentPath = ⟨.ok (), st, fs, 0, 0⟩) ∧
    ((prepareIndex env st fs documentPath).out = .ok () →
      prepareIndex env (prepareIndex env st fs documentPath).st
          (prepareIndex env st fs documentPath).fs documentPath
        = ⟨.ok (), (prepareIndex env st fs documentPath).st,
            (prepareIndex env st fs documentPath).fs, 0, 0⟩) := by
  constructor
  · intro idx hc hidx
    exact prepareIndex_found env st fs documentPath idx hc hidx
  · intro hok
    rcases prepareIndex_cases env st fs documentPath with
      ⟨hc, hEq⟩ | ⟨hc, ⟨idx, hidx⟩, hEq⟩ | ⟨hc, hidx, hrest⟩
    · rw [hEq] at hok; cases hok
    · rw [hEq] at hok ⊢
      exact prepareIndex_found env st fs documentPath idx hc hidx
    · rcases hrest with ⟨e, parseCount, hdet, hEq⟩ |
        ⟨documents, fs1, parseCount, hdet, hsub⟩
      · rw [hEq] at hok; cases hok
      · rcases hsub with ⟨hlen, hEq⟩ | ⟨hlen, hb, hEq⟩ | ⟨hlen, hb, hEq⟩
        · rw [hEq] at hok; cases hok
        · rw [hEq]
          exact prepareIndex_found env _ fs1 documentPath ⟨documents⟩ hc
            (assocGet_assocSet st.documentIndices documentPath ⟨documents⟩)
        · rw [hEq] at hok; cases hok

/-- C2 witness: a concrete first build (one parse, one build) followed by
a sequential second call that is a complete no-op. -/
theorem prepareIndex_idempotent_witness :
    prepareIndex envAll (prepareIndex envAll stEmpty fsNone "a.pdf").st
        (prepareIndex envAll stEmpty fsNone "a.pdf").fs "a.pdf"
      = ⟨.ok (), (prepareIndex envAll stEmpty fsNone "a.pdf").st,
          (prepareIndex envAll stEmpty fsNone "a.pdf").fs, 0, 0⟩ :=
  (prepareIndex_idempotent envAll stEmpty fsNone "a.pdf").2 rfl

/-! ## C3 — empty documents are rejected and never pollute the registry -/

/-- C3: a `prepareIndex` call whose parse or cache load yields zero
segments fails with the EmptyDocument error, and any failing call leaves
the registry exactly as it was: the registry is updated only by a fully
successful build. -/
theorem prepareIndex_empty_document (env : Env) (st : MgrState) (fs : FS)
    (documentPath : String) :
    (∀ e, (prepareIndex env st fs documentPath).out = .error e →
      (prepareIndex env st fs documentPath).st = st) ∧
    (∀ fs1 parseCount, env.configOk = true →
      assocGet st.documentIndices documentPath = none →
      determineDocuments env fs documentPath = (.ok ([], fs1), parseCount) →
      (prepareIndex env st fs documentPath).out = .error .emptyDocument ∧
      (prepareIndex env st fs documentPath).st = st) := by
  constructor
  · intro e hout
    rcases prepareIndex_cases env st fs documentPath with
      ⟨hc, hEq⟩ | ⟨hc, ⟨idx, hidx⟩, hEq⟩ | ⟨hc, hidx, hrest⟩
    · rw [hEq]
    · rw [hEq] at hout; cases hout
    · rcases hrest with ⟨e', parseCount, hdet, hEq⟩ |
        ⟨documents, fs1, parseCount, hdet, hsub⟩
      · rw [hEq]
      · rcases hsub with ⟨hlen, hEq⟩ | ⟨hlen, hb, hEq⟩ | ⟨hlen, hb, hEq⟩
        · rw [hEq]
        · rw [hEq] at hout; cases hout
        · rw [hEq]
  · intro fs1 parseCount hc hidx hdet
    rw [prepareIndex_det_empty env st fs documentPath fs1 parseCount hc hidx hdet]
    exact ⟨rfl, rfl⟩

/-- C3 witness: a parser that extracts zero segments makes the concrete
call fail with EmptyDocument and leaves the empty registry empty. -/
theorem prepareIndex_empty_document_witness :
    (prepareIndex ⟨true, fun _ => true, fun _ => some [], 7⟩ stEmpty fsNone "a.pdf").out
        = .error .emptyDocument ∧
      (prepareIndex ⟨true, fun _ => true, fun _ => some [], 7⟩ stEmpty fsNone "a.pdf").st
        = stEmpty :=
  (prepareIndex_empty_document ⟨true, fun _ => true, fun _ => some [], 7⟩
    stEmpty fsNone "a.pdf").2 fsNone 1 rfl rfl rfl

/-! ## C1 — concurrent `prepareIndex` calls are NOT deduplicated -/

/-- Two concurrent `prepareIndex("a.pdf")` calls, both started before
either finishes. -/
def raceStart : Global × List Task :=
  (⟨[], fsNone, 0, 0⟩, [⟨"a.pdf", .start⟩, ⟨"a.pdf", .start⟩])

/-- An event-loop schedule in which the second call passes the registry
check while the first is suspended at its freshness check — exactly what
happens when the two promises are started back to back — and then both
run to completion. -/
def raceFinal : Global × List Task :=
  runSched envAll raceStart [0, 1, 0, 0, 0, 1, 1, 1]

/-- C1 counterexample: under a schedule the Node event loop can produce,
two concurrent `prepareIndex` calls for the same ref both complete
successfully and the parser is invoked twice and the index built twice —
not once, as the claim states.  There is no in-flight-build guard: the
only deduplication is the registry check, which sees completed builds
only. -/
theorem prepareIndex_race_two_parses :
    raceFinal.1.parseCalls = 2 ∧ raceFinal.1.buildCalls = 2 ∧
      raceFinal.2.all taskDoneOk = true := by
  refine ⟨by decide, by decide, by decide⟩

/-- C1 amended: only a `prepareIndex(ref)` call that begins after another
build of `ref` has completed is deduplicated — its very first step
observes the registry entry and finishes at once with no parse and no
build, leaving the shared state untouched. -/
theorem prepareIndex_dedup_completed_only (env : Env) (g : Global) (ref : String)
    (idx : VectorStoreIndex) (hc : env.configOk = true)
    (hidx : assocGet g.registry ref = some idx) :
    stepTask env g ⟨ref, .start⟩ = (g, ⟨ref, .done (.ok ())⟩) := by
  simp [stepTask, hc, hidx]

/-- C1 amended witness: a later call against the registry the race left
behind finishes immediately. -/
theorem prepareIndex_dedup_completed_only_witness :
    stepTask envAll raceFinal.1 ⟨"a.pdf", .start⟩
      = (raceFinal.1, ⟨"a.pdf", .done (.ok ())⟩) :=
  prepareIndex_dedup_completed_only envAll raceFinal.1 "a.pdf" ⟨[doc0]⟩ rfl (by decide)

/-! ## C4 — `getIndex` rebuilds from cache only, absent is not an error -/

/-- C4: `getIndex` never invokes the parser; for a document absent from
the registry it returns absent (leaving the registry unchanged) when the
cache is stale/missing or its load throws, and it rebuilds from the
cached segments — populating the registry — exactly when the cache is
fresh, loads, is non-empty, and configuration and build succeed.
Eviction (`clearIndices`) removes the entry, so the next `getIndex`
takes exactly this rebuild path. -/
theorem getIndex_rebuilds_from_cache_only (env : Env) (st : MgrState) (fs : FS)
    (documentPath : String) :
    (getIndex env st fs documentPath).parseCalls = 0 ∧
    (assocGet st.documentIndices documentPath = none →
      ((shouldUseParsedFiles fs documentPath = false →
          getIndex env st fs documentPath = ⟨none, st, 0, 0⟩) ∧
       (loadParsedDocuments fs documentPath = none →
          getIndex env st fs documentPath = ⟨none, st, 0, 0⟩) ∧
       (∀ documents, shouldUseParsedFiles fs documentPath = true →
          loadParsedDocuments fs documentPath = some documents →
          0 < documents.length → env.configOk = true →
          env.buildOk documents = true →
          getIndex env st fs documentPath
            = ⟨some ⟨documents⟩,
                ⟨assocSet st.documentIndices documentPath ⟨documents⟩⟩, 0, 1⟩))) ∧
    (∀ st2 : MgrState,
      assocGet (clearIndices st2 [documentPath]).documentIndices documentPath = none) := by
  refine ⟨?_, ?_, ?_⟩
  · unfold getIndex
    cases hidx : assocGet st.documentIndices documentPath with
    | some idx => rfl
    | none =>
      cases hfresh : shouldUseParsedFiles fs documentPath with
      | false => simp [hfresh]
      | true =>
        cases hload : loadParsedDocuments fs documentPath with
        | none => simp [hfresh, hload]
        | some documents =>
          by_cases hlen : 0 < documents.length
          · cases hc : env.configOk with
            | false => simp [hfresh, hload, hlen, hc]
            | true =>
              cases hb : env.buildOk documents with
              | false => simp [hfresh, hload, hlen, hc, hb]
              | true => simp [hfresh, hload, hlen, hc, hb]
          · simp [hfresh, hload, hlen]
  · intro hidx
    refine ⟨?_, ?_, ?_⟩
    · intro hfresh
      unfold getIndex
      simp [hidx, hfresh]
    · intro hload
      unfold getIndex
      cases hfresh : shouldUseParsedFiles fs documentPath with
      | false => simp [hidx, hfresh]
      | true => simp [hidx, hfresh, hload]
    · intro documents hfresh hload hlen hc hb
      unfold getIndex
      simp [hidx, hfresh, hload, hlen, hc, hb]
  · intro st2
    show assocGet ((([documentPath] : List String).foldl
      (fun m p => if (assocGet m p).isSome then assocDel m p else m)
      st2.documentIndices)) documentPath = none
    simp only [List.foldl]
    by_cases h : (assocGet st2.documentIndices documentPath).isSome
    · simp [h, assocGet_assocDel]
    · simp only [h, if_false]
      exact Option.not_isSome_iff_eq_none.mp h

/-- C4 witness: with a fresh, loadable, non-empty cache entry the
concrete rebuild populates the registry, and the degenerate paths return
absent. -/
theorem getIndex_rebuilds_from_cache_only_witness :
    getIndex envAll stEmpty fsNone "a.pdf" = ⟨none, stEmpty, 0, 0⟩ ∧
    getIndex envAll stEmpty (saveParsedDocuments fsStatOnly "a.pdf" [doc0] 9) "a.pdf"
      = ⟨some ⟨[doc0]⟩, ⟨assocSet stEmpty.documentIndices "a.pdf" ⟨[doc0]⟩⟩, 0, 1⟩ :=
  ⟨((getIndex_rebuilds_from_cache_only envAll stEmpty fsNone "a.pdf").2.1 rfl).1 rfl,
   ((getIndex_rebuilds_from_cache_only envAll stEmpty
        (saveParsedDocuments fsStatOnly "a.pdf" [doc0] 9) "a.pdf").2.1 rfl).2.2
      [doc0] (by decide) (by decide) (by decide) rfl rfl⟩

/-! ## C6, C7, C10 — the combined index -/

/-- Every document of the collection loop comes from some listed ref's
cache load, tagged with that ref. -/
theorem mem_collectAllDocuments (fs : FS) (documentPaths : List String) (d : Doc)
    (hd : d ∈ collectAllDocuments fs documentPaths) :
    ∃ documentPath, documentPath ∈ documentPaths ∧
      ∃ ds d₀, loadParsedDocuments fs documentPath = some ds ∧ d₀ ∈ ds ∧
        d = tagSource documentPath d₀ := by
  induction documentPaths with
  | nil => simp [collectAllDocuments] at hd
  | cons r rest ih =>
    simp only [collectAllDocuments] at hd
    cases hl : loadParsedDocuments fs r with
    | some ds =>
      rw [hl] at hd
      rcases List.mem_append.mp hd with h1 | h2
      · rcases List.mem_map.mp h1 with ⟨d₀, hd₀, hEq⟩
        exact ⟨r, List.mem_cons_self r rest, ds, d₀, hl, hd₀, hEq.symm⟩
      · rcases ih h2 with ⟨ref, hr, rest'⟩
        exact ⟨ref, List.mem_cons_of_mem r hr, rest'⟩
    | none =>
      rw [hl] at hd
      rcases ih hd with ⟨ref, hr, rest'⟩
      exact ⟨ref, List.mem_cons_of_mem r hr, rest'⟩

/-- Conversely, every segment a listed ref's cache load yields appears,
tagged, in the collection. -/
theorem tagSource_mem_collectAllDocuments (fs : FS) (documentPaths : List String)
    (documentPath : String) (ds : List Doc)
    (href : documentPath ∈ documentPaths)
    (hl : loadParsedDocuments fs documentPath = some ds) :
    ∀ d ∈ ds, tagSource documentPath d ∈ collectAllDocuments fs documentPaths := by
  induction documentPaths with
  | nil => cases href
  | cons r rest ih =>
    intro d hd
    rcases List.mem_cons.mp href with hEq | hmem
    · subst hEq
      simp only [collectAllDocuments, hl]
      exact List.mem_append_left _ (List.mem_map_of_mem _ hd)
    · simp only [collectAllDocuments]
      cases hlr : loadParsedDocuments fs r with
      | some ds' => exact List.mem_append_right _ (ih hmem d hd)
      | none => exact ih hmem d hd

/-- C6: every segment of a combined index is a cache-loaded segment of
one of the given documents, re-tagged so that its metadata's
`source_document` equals the ref it was loaded from — whether or not the
raw segment carried that field. -/
theorem getCombinedIndex_source_attribution (env : Env) (fs : FS)
    (documentPaths : List String) (idx : VectorStoreIndex)
    (h : getCombinedIndex env fs documentPaths = .ok (some idx)) :
    ∀ d ∈ idx.docs, ∃ documentPath, documentPath ∈ documentPaths ∧
      assocGet d.metadata "source_document" = some documentPath ∧
      ∃ ds d₀, loadParsedDocuments fs documentPath = some ds ∧ d₀ ∈ ds ∧
        d = tagSource documentPath d₀ := by
  have hdocs : idx.docs = collectAllDocuments fs documentPaths := by
    unfold getCombinedIndex at h
    by_cases h0 : (collectAllDocuments fs documentPaths).length = 0
    · simp [h0] at h
    · cases hc : env.configOk with
      | false => simp [h0, hc] at h
      | true =>
        cases hb : env.buildOk (collectAllDocuments fs documentPaths) with
        | false => simp [h0, hc, hb] at h
        | true =>
          simp [h0, hc, hb] at h
          rw [← h]
  intro d hd
  rw [hdocs] at hd
  rcases mem_collectAllDocuments fs documentPaths d hd with
    ⟨documentPath, hr, ds, d₀, hl, hd₀, hEq⟩
  refine ⟨documentPath, hr, ?_, ds, d₀, hl, hd₀, hEq⟩
  rw [hEq]
  show assocGet (assocSet d₀.metadata "source_document" documentPath)
    "source_document" = some documentPath
  exact assocGet_assocSet d₀.metadata "source_document" documentPath

/-- C6 witness: a concrete combined index over one cached document whose
raw segment carries no `source_document` field. -/
theorem getCombinedIndex_source_attribution_witness :
    ∃ documentPath, documentPath ∈ ["x/doc.pdf"] ∧
      assocGet (tagSource "x/doc.pdf" doc0).metadata "source_document"
        = some documentPath ∧
      ∃ ds d₀,
        loadParsedDocuments (saveParsedDocuments fsStatOnly "x/doc.pdf" [doc0] 9)
            documentPath = some ds ∧ d₀ ∈ ds ∧
          tagSource "x/doc.pdf" doc0 = tagSource documentPath d₀ :=
  getCombinedIndex_source_attribution envAll
    (saveParsedDocuments fsStatOnly "x/doc.pdf" [doc0] 9) ["x/doc.pdf"]
    ⟨[tagSource "x/doc.pdf" doc0]⟩ (by decide) (tagSource "x/doc.pdf" doc0)
    (by decide)

/-- C7: a ref whose cache load throws is skipped without aborting the
others — dropping it anywhere in the list leaves the collection
unchanged, so `getCombinedIndex [A, B]` with B unloadable equals
`getCombinedIndex [A]` — and the result is absent exactly when the
collected segment set over all refs is empty. -/
theorem getCombinedIndex_partial_availability (env : Env) (fs : FS) (a b : String)
    (hb : loadParsedDocuments fs b = none) :
    (∀ xs ys, collectAllDocuments fs (xs ++ b :: ys) = collectAllDocuments fs (xs ++ ys)) ∧
    getCombinedIndex env fs [a, b] = getCombinedIndex env fs [a] ∧
    (∀ documentPaths, getCombinedIndex env fs documentPaths = .ok none ↔
      collectAllDocuments fs documentPaths = []) := by
  have hskip : ∀ xs ys,
      collectAllDocuments fs (xs ++ b :: ys) = collectAllDocuments fs (xs ++ ys) := by
    intro xs ys
    induction xs with
    | nil => simp only [List.nil_append, collectAllDocuments, hb]
    | cons x xs ih =>
      show collectAllDocuments fs (x :: (xs ++ b :: ys))
        = collectAllDocuments fs (x :: (xs ++ ys))
      simp only [collectAllDocuments]
      rw [ih]
  refine ⟨hskip, ?_, ?_⟩
  · have hcol : collectAllDocuments fs [a, b] = collectAllDocuments fs [a] :=
      hskip [a] []
    unfold getCombinedIndex
    rw [hcol]
  · intro documentPaths
    unfold getCombinedIndex
    cases hl : collectAllDocuments fs documentPaths with
    | nil => simp
    | cons d ds =>
      cases hc : env.configOk with
      | false => simp [hc]
      | true =>
        cases hbk : env.buildOk (d :: ds) with
        | false => simp [hc, hbk]
        | true => simp [hc, hbk]

/-- C7 witness: with A cached and B missing, the combined index over
`[A, B]` equals the one over `[A]` (built from A's segments only), and
over `[B]` alone it is absent. -/
theorem getCombinedIndex_partial_availability_witness :
    getCombinedIndex envAll (saveParsedDocuments fsStatOnly "a.pdf" [doc0] 9)
        ["a.pdf", "b.pdf"]
      = getCombinedIndex envAll (saveParsedDocuments fsStatOnly "a.pdf" [doc0] 9)
        ["a.pdf"] ∧
    (getCombinedIndex envAll fsNone ["b.pdf"] = .ok none ↔
      collectAllDocuments fsNone ["b.pdf"] = []) :=
  ⟨(getCombinedIndex_partial_availability envAll
      (saveParsedDocuments fsStatOnly "a.pdf" [doc0] 9) "a.pdf" "b.pdf"
      (by decide)).2.1,
   (getCombinedIndex_partial_availability envAll fsNone "a.pdf" "b.pdf"
      (by decide)).2.2 ["b.pdf"]⟩

/-- C10: the combined index performs no freshness check at all: a listed
ref whose cache entry is stale (its freshness check returns `false`) still
has all its cached segments loaded and included, and the result is
entirely independent of the parser oracle and the clock — the parser is
never invoked. -/
theorem getCombinedIndex_ignores_freshness (fs : FS) (documentPaths : List String)
    (documentPath : String) (ds : List Doc) (cfg : Bool) (bOk : List Doc → Bool)
    (p₁ p₂ : String → Option (List Doc)) (n₁ n₂ : Nat)
    (href : documentPath ∈ documentPaths)
    (hl : loadParsedDocuments fs documentPath = some ds)
    (_hstale : shouldUseParsedFiles fs documentPath = false) :
    (∀ d ∈ ds, tagSource documentPath d ∈ collectAllDocuments fs documentPaths) ∧
    getCombinedIndex ⟨cfg, bOk, p₁, n₁⟩ fs documentPaths
      = getCombinedIndex ⟨cfg, bOk, p₂, n₂⟩ fs documentPaths := by
  exact ⟨tagSource_mem_collectAllDocuments fs documentPaths documentPath ds href hl,
    rfl⟩

/-- A filesystem holding a stale cache entry for `a.pdf`: the cache
files' mtime (2) is older than the source's (5), yet the segments file is
readable. -/
def fsStale : FS :=
  ⟨fun q =>
    if q = (getParsedPaths "a.pdf").documentsPath ∨
        q = (getParsedPaths "a.pdf").metadataPath then some 2 else some 5,
   fun q =>
    if q = (getParsedPaths "a.pdf").documentsPath then some [doc0] else none⟩

/-- C10 witness: a cache entry older than its source (stale: cache mtime
2 < source mtime 5) is still loaded into the combined index. -/
theorem getCombinedIndex_ignores_freshness_witness :
    (∀ d ∈ [doc0], tagSource "a.pdf" d ∈ collectAllDocuments fsStale ["a.pdf"]) ∧
    getCombinedIndex ⟨true, fun _ => true, fun _ => some [doc0], 0⟩ fsStale ["a.pdf"]
      = getCombinedIndex ⟨true, fun _ => true, fun _ => none, 9⟩ fsStale ["a.pdf"] :=
  getCombinedIndex_ignores_freshness fsStale ["a.pdf"] "a.pdf" [doc0] true
    (fun _ => true) (fun _ => some [doc0]) (fun _ => none) 0 9
    (by decide) (by decide) (by decide)

end Nexus
